import Mathlib

set_option autoImplicit false

/-!
Shallow embedding of the contact-book core shared by `01.py` and `02.py`
(classes `Name`, `Phone`, `Birthday`, `Record`, `AddressBook`).  Mutating
Python methods become functions returning the post-state together with the
method's result; a raised `ValueError` becomes an explicit error value.
-/

namespace ContactBook

/-- Errors raised by the core, one constructor per distinct raise site:
`nameRequired` for `Name.__init__`, `phoneInvalid` for
`Phone.validate_phone`, `birthdayFormat` for `Birthday.validate_birthday`
(which catches every `ValueError` out of `strptime` and re-raises with the
DD.MM.YYYY message), and `dateOutOfRange` for the `ValueError` raised by the
`datetime` library itself when `replace(year=...)` would build an invalid
date. -/
inductive PyErr where
  | nameRequired
  | phoneInvalid
  | birthdayFormat
  | dateOutOfRange
  deriving DecidableEq

/-- The spec's ValidationError taxonomy (empty name, malformed phone,
malformed birthday text): the three errors raised by the core's own
validation code, as opposed to an error coming out of the date library. -/
def PyErr.isValidation : PyErr → Bool
  | .nameRequired => true
  | .phoneInvalid => true
  | .birthdayFormat => true
  | .dateOutOfRange => false

/-- Python `str.isdigit` on one character, modelled on the digit ranges this
development uses: ASCII `0`-`9`, Arabic-Indic `٠`-`٩` (U+0660-0669) and
fullwidth `０`-`９` (U+FF10-FF19).  Python accepts further Unicode digit
characters; every character accepted here is accepted by Python, and on
these ranges the model is exact. -/
def pyIsDigit (c : Char) : Bool :=
  decide (48 ≤ c.toNat ∧ c.toNat ≤ 57)
    || decide (1632 ≤ c.toNat ∧ c.toNat ≤ 1641)
    || decide (65296 ≤ c.toNat ∧ c.toNat ≤ 65305)

/-- Numeric value of a modelled digit character (as `int()` conversion uses). -/
def digitVal (c : Char) : ℕ :=
  if 48 ≤ c.toNat ∧ c.toNat ≤ 57 then c.toNat - 48
  else if 1632 ≤ c.toNat ∧ c.toNat ≤ 1641 then c.toNat - 1632
  else if 65296 ≤ c.toNat ∧ c.toNat ≤ 65305 then c.toNat - 65296
  else 0

/-- ASCII decimal digit `0`-`9`; used to state the spec's phrase
"ASCII decimal digits" (this is the spec's wording, not the code's check). -/
def isAsciiDigit (c : Char) : Bool :=
  decide (48 ≤ c.toNat ∧ c.toNat ≤ 57)

/-- `Phone.validate_phone`: `value.isdigit() and len(value) == 10`
(Python `len` counts code points, matching `String.data.length`). -/
def pyPhoneOk (s : String) : Bool :=
  s.data.all pyIsDigit && decide (s.data.length = 10)

/-- Wrapper for the `Name` field class. -/
structure Name where
  value : String
  deriving DecidableEq

/-- `Name.__init__`: `if not value: raise ValueError(...)`; the empty string
is the only falsy string. -/
def Name.make (s : String) : Except PyErr Name :=
  if s = "" then .error .nameRequired else .ok ⟨s⟩

/-- Wrapper for the `Phone` field class. -/
structure Phone where
  value : String
  deriving DecidableEq

/-- `Phone.__init__`: validate, then store. -/
def Phone.make (s : String) : Except PyErr Phone :=
  if pyPhoneOk s then .ok ⟨s⟩ else .error .phoneInvalid

/-- A calendar date as stored in a Python `date`/`datetime` (the time part of
a parsed birthday is always midnight, so a birthday is just its date). -/
structure PyDate where
  year : ℕ
  month : ℕ
  day : ℕ
  deriving DecidableEq

/-- Gregorian leap-year rule, as `calendar.isleap` / the `datetime` module. -/
def isLeap (y : ℕ) : Bool :=
  y % 4 == 0 && (y % 100 != 0 || y % 400 == 0)

/-- Length of month `m` in year `y` (months numbered 1-12). -/
def daysInMonth (y m : ℕ) : ℕ :=
  if m = 2 then (if isLeap y then 29 else 28)
  else if m = 4 ∨ m = 6 ∨ m = 9 ∨ m = 11 then 30
  else 31

/-- Validity check performed by the `datetime.date`/`datetime` constructor:
`MINYEAR = 1 ≤ year ≤ MAXYEAR = 9999`, `1 ≤ month ≤ 12`,
`1 ≤ day ≤ days_in_month`. -/
def validDate (y m d : ℕ) : Bool :=
  decide (1 ≤ y) && decide (y ≤ 9999) && decide (1 ≤ m) && decide (m ≤ 12)
    && decide (1 ≤ d) && decide (d ≤ daysInMonth y m)

/-- `value.replace(year=y)`: rebuild the date with the same month and day and
the new year; the `datetime` constructor raises `ValueError` (for a Feb 29
birthday in a non-leap year: "day is out of range for month") if the
resulting date is invalid. -/
def PyDate.replaceYear (d : PyDate) (y : ℕ) : Except PyErr PyDate :=
  if validDate y d.month d.day then .ok ⟨y, d.month, d.day⟩
  else .error .dateOutOfRange

/-- Days in the months strictly before month `m` of year `y`. -/
def daysBeforeMonth (y m : ℕ) : ℕ :=
  ([31, if isLeap y then 29 else 28, 31, 30, 31, 30, 31, 31, 30, 31, 30, 31].take
    (m - 1)).sum

/-- Proleptic Gregorian ordinal of a date, as Python `date.toordinal()`
(0001-01-01 has ordinal 1); for valid dates it orders exactly as the
`datetime` field-lexicographic comparison on (year, month, day). -/
def PyDate.ordinal (d : PyDate) : ℕ :=
  365 * (d.year - 1) + (d.year - 1) / 4 - (d.year - 1) / 100 + (d.year - 1) / 400
    + daysBeforeMonth d.year d.month + d.day

/-- A naive Python `datetime`: a calendar date plus a time of day (sub-day
units since midnight; the code only ever compares them, so the unit is
irrelevant).  `datetime.now()` is modelled by passing such a value in. -/
structure PyDateTime where
  date : PyDate
  tod : ℕ
  deriving DecidableEq

/-- Comparison key of a `datetime`: Python compares datetimes
field-lexicographically, which for valid dates coincides with the
lexicographic order on (ordinal of the date, time of day). -/
def PyDateTime.key (t : PyDateTime) : ℕ × ℕ :=
  (t.date.ordinal, t.tod)

/-- Lexicographic `≤` on comparison keys. -/
def keyLe (a b : ℕ × ℕ) : Bool :=
  decide (a.1 < b.1) || (decide (a.1 = b.1) && decide (a.2 ≤ b.2))

/-- Lexicographic `<` on comparison keys. -/
def keyLt (a b : ℕ × ℕ) : Bool :=
  decide (a.1 < b.1) || (decide (a.1 = b.1) && decide (a.2 < b.2))

/-- The window test of `get_upcoming_birthdays`:
`today <= birthday_this_year < next_week`, where `birthday_this_year` is the
midnight datetime of date `d` and `next_week = today + timedelta(days=7)`
(same time of day, ordinal advanced by 7). -/
def inWindow (now : PyDateTime) (d : PyDate) : Bool :=
  keyLe now.key (d.ordinal, 0) && keyLt (d.ordinal, 0) (now.date.ordinal + 7, now.tod)

/-- Matches of the `%d` directive.  CPython `_strptime` compiles `%d` to the
regex `(3[0-1]|[1-2]\d|0[1-9]|[1-9]| [1-9])`; this returns every way an
alternative can consume a prefix of the input, in alternation order, paired
with the parsed value and the rest of the input. -/
def dayAlts (l : List Char) : List (ℕ × List Char) :=
  (match l with
    | '3' :: c :: r =>
      if c = '0' ∨ c = '1' then [(30 + digitVal c, r)] else []
    | _ => [])
  ++ (match l with
    | c1 :: c2 :: r =>
      if (c1 = '1' ∨ c1 = '2') ∧ pyIsDigit c2 = true then
        [(10 * digitVal c1 + digitVal c2, r)]
      else []
    | _ => [])
  ++ (match l with
    | '0' :: c :: r =>
      if 49 ≤ c.toNat ∧ c.toNat ≤ 57 then [(digitVal c, r)] else []
    | _ => [])
  ++ (match l with
    | c :: r =>
      if 49 ≤ c.toNat ∧ c.toNat ≤ 57 then [(digitVal c, r)] else []
    | _ => [])
  ++ (match l with
    | ' ' :: c :: r =>
      if 49 ≤ c.toNat ∧ c.toNat ≤ 57 then [(digitVal c, r)] else []
    | _ => [])

/-- Matches of the `%m` directive, regex `(1[0-2]|0[1-9]|[1-9])`. -/
def monthAlts (l : List Char) : List (ℕ × List Char) :=
  (match l with
    | '1' :: c :: r =>
      if c = '0' ∨ c = '1' ∨ c = '2' then [(10 + digitVal c, r)] else []
    | _ => [])
  ++ (match l with
    | '0' :: c :: r =>
      if 49 ≤ c.toNat ∧ c.toNat ≤ 57 then [(digitVal c, r)] else []
    | _ => [])
  ++ (match l with
    | c :: r =>
      if 49 ≤ c.toNat ∧ c.toNat ≤ 57 then [(digitVal c, r)] else []
    | _ => [])

/-- Matches of the `%Y` directive, regex `(\d\d\d\d)`: exactly four digits. -/
def yearAlts (l : List Char) : List (ℕ × List Char) :=
  match l with
  | a :: b :: c :: d :: r =>
    if pyIsDigit a = true ∧ pyIsDigit b = true ∧ pyIsDigit c = true ∧ pyIsDigit d = true then
      [(1000 * digitVal a + 100 * digitVal b + 10 * digitVal c + digitVal d, r)]
    else []
  | _ => []

/-- All prefix matches of the compiled format regex
`(%d)\.(%m)\.(%Y)` in backtracking order, each as ((day, month, year),
unconsumed rest).  The regex engine's leftmost-alternative-first backtracking
is exactly enumeration in this order. -/
def dmyMatches (l : List Char) : List ((ℕ × ℕ × ℕ) × List Char) :=
  (dayAlts l).flatMap fun dm =>
    match dm.2 with
    | '.' :: r1 =>
      (monthAlts r1).flatMap fun mm =>
        match mm.2 with
        | '.' :: r2 => (yearAlts r2).map fun ym => ((dm.1, mm.1, ym.1), ym.2)
        | _ => []
    | _ => []

/-- `datetime.strptime(s, "%d.%m.%Y")` as called by
`Birthday.validate_birthday`: take the first regex match; raise if there is
none, if unconverted data remains, or if the matched fields are not a valid
calendar date (`_strptime` constructs a `datetime.date` to compute the julian
day, which raises `ValueError` for e.g. 31.02 or year 0000).  Every one of
these `ValueError`s is caught by `validate_birthday` and re-raised as the
DD.MM.YYYY format error. -/
def strptimeDMY (s : String) : Except PyErr PyDate :=
  match dmyMatches s.data with
  | [] => .error .birthdayFormat
  | (dmy, rest) :: _ =>
    if rest = [] then
      if validDate dmy.2.2 dmy.2.1 dmy.1 then .ok ⟨dmy.2.2, dmy.2.1, dmy.1⟩
      else .error .birthdayFormat
    else .error .birthdayFormat

/-- `Birthday.__init__` stores the datetime parsed by `validate_birthday`
(always midnight, so the retained information is the date). -/
def Birthday.make (s : String) : Except PyErr PyDate :=
  strptimeDMY s

/-- The `Record` class: one `Name`, an ordered phone list, an optional
birthday date. -/
structure Record where
  name : Name
  phones : List Phone
  birthday : Option PyDate
  deriving DecidableEq

/-- `Record.__init__(name)`: validate the name; start with no phones and no
birthday. -/
def Record.make (s : String) : Except PyErr Record :=
  (Name.make s).map fun n => ⟨n, [], none⟩

/-- `Record.add_phone`: `Phone(phone_number)` runs first and may raise, in
which case the record is untouched; otherwise the new phone is appended. -/
def Record.add_phone (r : Record) (s : String) : Record × Option PyErr :=
  match Phone.make s with
  | .error e => (r, some e)
  | .ok p => ({ r with phones := r.phones ++ [p] }, none)

/-- Loop of `Record.remove_phone`: remove the first phone whose value equals
the argument, reporting whether one was removed. -/
def removeFirst : List Phone → String → List Phone × Bool
  | [], _ => ([], false)
  | p :: t, s =>
    if p.value = s then (t, true)
    else
      let rest := removeFirst t s
      (p :: rest.1, rest.2)

/-- `Record.remove_phone`. -/
def Record.remove_phone (r : Record) (s : String) : Record × Bool :=
  let res := removeFirst r.phones s
  ({ r with phones := res.1 }, res.2)

/-- Loop of `Record.edit_phone`: on the first phone whose value equals `old`,
assign `phone.value = new_number` — with no validation of the new value —
and return `True`; if no phone matches, return `False`. -/
def editFirst : List Phone → String → String → List Phone × Bool
  | [], _, _ => ([], false)
  | p :: t, old, new =>
    if p.value = old then (⟨new⟩ :: t, true)
    else
      let rest := editFirst t old new
      (p :: rest.1, rest.2)

/-- `Record.edit_phone`. -/
def Record.edit_phone (r : Record) (old new : String) : Record × Bool :=
  let res := editFirst r.phones old new
  ({ r with phones := res.1 }, res.2)

/-- `Record.find_phone`: first phone whose value equals the argument, else
`None`. -/
def Record.find_phone (r : Record) (s : String) : Option Phone :=
  r.phones.find? fun p => p.value == s

/-- `Record.add_birthday`: `self.birthday = Birthday(birthday)`; the
right-hand side raises before the assignment happens, so on error the record
is untouched.  A successful call overwrites any previous birthday. -/
def Record.add_birthday (r : Record) (s : String) : Record × Option PyErr :=
  match Birthday.make s with
  | .error e => (r, some e)
  | .ok d => ({ r with birthday := some d }, none)

/-- One mutating `Record` operation, for stating the phone-list invariant
over arbitrary operation sequences. -/
inductive RecordOp where
  | addPhone (s : String)
  | removePhone (s : String)
  | editPhone (old new : String)
  | addBirthday (s : String)

/-- Post-state of running one operation on a record (the record after the
Python call returns, whether it raised or not). -/
def applyOp (r : Record) : RecordOp → Record
  | .addPhone s => (r.add_phone s).1
  | .removePhone s => (r.remove_phone s).1
  | .editPhone old new => (r.edit_phone old new).1
  | .addBirthday s => (r.add_birthday s).1

/-- An operation whose written phone value (if any) passes
`Phone.validate_phone`. -/
def RecordOp.validNew : RecordOp → Bool
  | .editPhone _ new => pyPhoneOk new
  | _ => true

/-- Every phone held by the record passes `Phone.validate_phone`. -/
def Record.phonesOk (r : Record) : Bool :=
  r.phones.all fun p => pyPhoneOk p.value

/-- The `AddressBook` (a `UserDict`): its `data` dict, as an association
list in insertion order with unique keys. -/
structure AddressBook where
  data : List (String × Record)
  deriving DecidableEq

/-- Python dict assignment `self.data[k] = v`: replace the value at an
existing key in place, else append the new entry. -/
def dictInsert (l : List (String × Record)) (k : String) (v : Record) :
    List (String × Record) :=
  match l with
  | [] => [(k, v)]
  | (k', v') :: t =>
    if k' = k then (k, v) :: t else (k', v') :: dictInsert t k v

/-- Python `del self.data[k]`: drop the entry at the key. -/
def dictDelete (l : List (String × Record)) (k : String) :
    List (String × Record) :=
  match l with
  | [] => []
  | (k', v') :: t =>
    if k' = k then t else (k', v') :: dictDelete t k

/-- `AddressBook.add_record`: `self.data[record.name.value] = record`. -/
def AddressBook.add_record (b : AddressBook) (r : Record) : AddressBook :=
  ⟨dictInsert b.data r.name.value r⟩

/-- `AddressBook.find`: `self.data.get(name)`. -/
def AddressBook.find (b : AddressBook) (s : String) : Option Record :=
  (b.data.find? fun p => p.1 == s).map Prod.snd

/-- `AddressBook.delete`: `if name in self.data: del ...; return True` else
`return False`. -/
def AddressBook.delete (b : AddressBook) (s : String) : AddressBook × Bool :=
  if (b.data.find? fun p => p.1 == s).isSome then (⟨dictDelete b.data s⟩, true)
  else (b, false)

/-- Body of the loop in `get_upcoming_birthdays` for one record: skip a
record with no birthday; otherwise `replace(year=today.year)` (which may
raise), then the window comparison, yielding the record's name when it
passes. -/
def recordUpcoming (now : PyDateTime) (r : Record) : Except PyErr (Option String) :=
  match r.birthday with
  | none => .ok none
  | some bd =>
    match bd.replaceYear now.date.year with
    | .error e => .error e
    | .ok d => if inWindow now d then .ok (some r.name.value) else .ok none

/-- The loop of `get_upcoming_birthdays` over `self.data.values()` in
insertion order, appending matching names; a raised error aborts the whole
call. -/
def upcomingLoop (now : PyDateTime) : List (String × Record) → Except PyErr (List String)
  | [] => .ok []
  | (_, r) :: t =>
    match recordUpcoming now r with
    | .error e => .error e
    | .ok none => upcomingLoop now t
    | .ok (some n) => (upcomingLoop now t).map fun l => n :: l

/-- `AddressBook.get_upcoming_birthdays`, with `today = datetime.now()`
passed explicitly as `now`. -/
def AddressBook.get_upcoming_birthdays (b : AddressBook) (now : PyDateTime) :
    Except PyErr (List String) :=
  upcomingLoop now b.data

/-- Declarative per-record inclusion predicate, following the spec's words:
the record has a birthday whose anniversary-in-the-current-year exists and
lies in the half-open 7-day window starting at `now`. -/
def upcomingPred (now : PyDateTime) (r : Record) : Bool :=
  match r.birthday with
  | none => false
  | some bd =>
    match bd.replaceYear now.date.year with
    | .ok d => inWindow now d
    | .error _ => false

/-- A freshly created record for the contact "John", used as a concrete
starting state in witnesses. -/
def rJohn : Record :=
  ⟨⟨"John"⟩, [], none⟩

/-- Concrete book for the fixed-date upcoming-birthdays example: John's
birthday 15.11.1990 is in the window of 2024-11-14, Jane's 25.11.1990 is
not, Bob has none. -/
def sampleBook : AddressBook :=
  ⟨[("John", ⟨⟨"John"⟩, [], some ⟨1990, 11, 15⟩⟩),
    ("Jane", ⟨⟨"Jane"⟩, [], some ⟨1990, 11, 25⟩⟩),
    ("Bob", ⟨⟨"Bob"⟩, [], none⟩)]⟩

/-- Concrete book holding a record whose birthday is Feb 29 of a leap year. -/
def febBook : AddressBook :=
  ⟨[("Feb", ⟨⟨"Feb"⟩, [], some ⟨2020, 2, 29⟩⟩)]⟩

/-! Helper lemmas. -/

/-- Removing a phone only ever drops elements: anything left was there before. -/
theorem removeFirst_mem (l : List Phone) (s : String) (p : Phone)
    (h : p ∈ (removeFirst l s).1) : p ∈ l := by
  induction l with
  | nil => simp [removeFirst] at h
  | cons q t ih =>
    by_cases hq : q.value = s
    · simp only [removeFirst, hq, if_pos] at h
      exact List.mem_cons_of_mem _ h
    · simp only [removeFirst, hq, if_neg, not_false_iff, List.mem_cons] at h
      rcases h with h | h
      · exact h ▸ List.mem_cons_self _ _
      · exact List.mem_cons_of_mem _ (ih h)

/-- Editing a phone leaves behind only old elements and the written value. -/
theorem editFirst_mem (l : List Phone) (old new : String) (p : Phone)
    (h : p ∈ (editFirst l old new).1) : p ∈ l ∨ p = ⟨new⟩ := by
  induction l with
  | nil => simp [editFirst] at h
  | cons q t ih =>
    by_cases hq : q.value = old
    · simp only [editFirst, hq, if_pos, List.mem_cons] at h
      rcases h with h | h
      · exact Or.inr h
      · exact Or.inl (List.mem_cons_of_mem _ h)
    · simp only [editFirst, hq, if_neg, not_false_iff, List.mem_cons] at h
      rcases h with h | h
      · exact Or.inl (h ▸ List.mem_cons_self _ _)
      · rcases ih h with h' | h'
        · exact Or.inl (List.mem_cons_of_mem _ h')
        · exact Or.inr h'

/-- One operation whose written value (if any) is valid preserves the
phone-list invariant. -/
theorem applyOp_phonesOk (r : Record) (op : RecordOp)
    (hr : r.phonesOk = true) (hop : op.validNew = true) :
    (applyOp r op).phonesOk = true := by
  rw [Record.phonesOk, List.all_eq_true] at hr ⊢
  cases op with
  | addPhone s =>
    simp only [applyOp, Record.add_phone]
    cases hm : Phone.make s with
    | error e => exact hr
    | ok p =>
      intro q hq
      simp only [List.mem_append, List.mem_singleton] at hq
      rcases hq with hq | hq
      · exact hr q hq
      · subst hq
        unfold Phone.make at hm
        split at hm
        · cases hm
          assumption
        · cases hm
  | removePhone s =>
    intro q hq
    exact hr q (removeFirst_mem r.phones s q hq)
  | editPhone old new =>
    intro q hq
    rcases editFirst_mem r.phones old new q hq with h | h
    · exact hr q h
    · subst h
      exact hop
  | addBirthday s =>
    simp only [applyOp, Record.add_birthday]
    cases hm : Birthday.make s with
    | error e => exact hr
    | ok d => exact hr

/-- The invariant is preserved along any sequence of valid-write operations. -/
theorem foldl_phonesOk (ops : List RecordOp) :
    ∀ r : Record, r.phonesOk = true → (∀ op ∈ ops, op.validNew = true) →
      (ops.foldl applyOp r).phonesOk = true := by
  induction ops with
  | nil => exact fun r h _ => h
  | cons op t ih =>
    intro r h hops
    simp only [List.foldl_cons]
    exact ih _ (applyOp_phonesOk r op h (hops op (by simp)))
      fun o ho => hops o (by simp [ho])

/-! Claim theorems. -/

/-- C1 (counterexample): starting from a freshly created record holding the
valid phone "1234567890", the operation sequence
`edit_phone("1234567890", "abc")` leaves the value "abc" — which is not 10
digits — in the phone list: `edit_phone` assigns the new value without
validating it. -/
theorem edit_phone_breaks_invariant :
    Record.make "John" = .ok rJohn
  ∧ (([RecordOp.addPhone "1234567890",
       RecordOp.editPhone "1234567890" "abc"]).foldl applyOp rJohn).phones.map
        Phone.value = ["abc"]
  ∧ pyPhoneOk "abc" = false :=
  ⟨rfl, rfl, rfl⟩

/-- C1 (amended): every phone value held in a Record is one that passes
`Phone.validate_phone` (10 digit characters), at all times, under any
sequence of `add_phone`, `remove_phone`, `add_birthday`, and those
`edit_phone` calls whose new value is itself a valid phone; an `edit_phone`
with an invalid new value is the one operation that can break this, since it
performs no validation. -/
theorem phone_invariant (s : String) (r : Record) (hr : Record.make s = .ok r)
    (ops : List RecordOp) (hops : ∀ op ∈ ops, op.validNew = true) :
    (ops.foldl applyOp r).phonesOk = true := by
  have h0 : r.phonesOk = true := by
    unfold Record.make Name.make at hr
    split at hr
    · cases hr
    · cases hr
      rfl
  exact foldl_phonesOk ops r h0 hops

/-- Witness for the amended C1 theorem at a concrete record and operation
sequence. -/
theorem phone_invariant_witness :
    (([RecordOp.addPhone "1234567890",
       RecordOp.editPhone "1234567890" "1112223333"]).foldl applyOp
        rJohn).phonesOk = true :=
  phone_invariant "John" rJohn rfl _ (by decide)

/-- The first-match replacement performed by the edit loop, phrased through
`List.findIdx` / `List.set`. -/
theorem editFirst_found (l : List Phone) (old new : String)
    (h : l.findIdx (fun p => p.value == old) < l.length) :
    editFirst l old new = (l.set (l.findIdx fun p => p.value == old) ⟨new⟩, true) := by
  induction l with
  | nil => simp at h
  | cons q t ih =>
    by_cases hq : q.value = old
    · have hb : (fun p : Phone => p.value == old) q = true := by simp [hq]
      simp [editFirst, hq, List.findIdx_cons, hb]
    · have hb : (fun p : Phone => p.value == old) q = false := by simp [hq]
      simp only [List.findIdx_cons, hb, cond_false, List.length_cons] at h
      have ht : t.findIdx (fun p => p.value == old) < t.length := by omega
      simp [editFirst, hq, List.findIdx_cons, hb, ih ht]

/-- The edit loop reports failure and changes nothing when no phone matches. -/
theorem editFirst_not_found (l : List Phone) (old new : String)
    (h : ∀ p ∈ l, p.value ≠ old) :
    editFirst l old new = (l, false) := by
  induction l with
  | nil => rfl
  | cons q t ih =>
    have hq : q.value ≠ old := h q (List.mem_cons_self _ _)
    simp [editFirst, hq, ih fun p hp => h p (List.mem_cons_of_mem _ hp)]

/-- C2 (counterexample): `edit_phone` does not validate the new number: on a
record holding "1234567890", editing it to "abc" does not fail with
ValidationError — it succeeds, returns true, and stores "abc", although
"abc" is not a valid 10-digit phone. -/
theorem edit_phone_no_validation :
    Record.edit_phone ⟨⟨"John"⟩, [⟨"1234567890"⟩], none⟩ "1234567890" "abc"
      = (⟨⟨"John"⟩, [⟨"abc"⟩], none⟩, true)
  ∧ pyPhoneOk "abc" = false :=
  ⟨rfl, rfl⟩

/-- C2 (amended): `edit_phone(old, new)` performs no validation of `new`; it
replaces the value of the first phone equal to `old` — later duplicate
occurrences and every other field unchanged — and returns true; if no phone
equals `old` it returns false and leaves the record unchanged. -/
theorem edit_phone_spec (r : Record) (old new : String) :
    (r.phones.findIdx (fun p => p.value == old) < r.phones.length →
      r.edit_phone old new =
        ({ r with phones :=
            r.phones.set (r.phones.findIdx fun p => p.value == old) ⟨new⟩ }, true))
  ∧ ((∀ p ∈ r.phones, p.value ≠ old) → r.edit_phone old new = (r, false)) := by
  constructor
  · intro h
    simp [Record.edit_phone, editFirst_found r.phones old new h]
  · intro h
    simp [Record.edit_phone, editFirst_not_found r.phones old new h]

/-- Witness for the amended C2 theorem: the first of two duplicate phones is
replaced, the later duplicate is untouched. -/
theorem edit_phone_spec_witness :
    Record.edit_phone ⟨⟨"John"⟩, [⟨"1234567890"⟩, ⟨"1234567890"⟩], none⟩
        "1234567890" "1112223333"
      = (⟨⟨"John"⟩, [⟨"1112223333"⟩, ⟨"1234567890"⟩], none⟩, true) := by
  have h := (edit_phone_spec ⟨⟨"John"⟩, [⟨"1234567890"⟩, ⟨"1234567890"⟩], none⟩
    "1234567890" "1112223333").1 (by decide)
  rw [h]
  decide

/-- C4 (counterexample): a string of ten Arabic-Indic digits is accepted by
`add_phone` (Python `str.isdigit` is not restricted to ASCII), although it
does not consist of ASCII decimal digits. -/
theorem add_phone_accepts_nonascii :
    (rJohn.add_phone "٠١٢٣٤٥٦٧٨٩").2 = none
  ∧ (rJohn.add_phone "٠١٢٣٤٥٦٧٨٩").1.phones.map Phone.value = ["٠١٢٣٤٥٦٧٨٩"]
  ∧ "٠١٢٣٤٥٦٧٨٩".data.all isAsciiDigit = false :=
  ⟨rfl, rfl, rfl⟩

/-- C4 (amended): `add_phone(s)` succeeds — appending a new Phone with value
`s` to the end of the list — iff `s` consists of exactly 10 characters that
Python's `str.isdigit` accepts (a superset of the ASCII decimal digits);
every other string fails with ValidationError, leaving the record
unchanged. -/
theorem add_phone_spec (r : Record) (s : String) :
    (pyPhoneOk s = true →
      r.add_phone s = ({ r with phones := r.phones ++ [⟨s⟩] }, none))
  ∧ (pyPhoneOk s = false → r.add_phone s = (r, some .phoneInvalid)) := by
  constructor <;> intro h <;> simp [Record.add_phone, Phone.make, h]

/-- Witness for the amended C4 theorem at a valid and an invalid input. -/
theorem add_phone_spec_witness :
    rJohn.add_phone "1234567890" = ({ rJohn with phones := [⟨"1234567890"⟩] }, none)
  ∧ rJohn.add_phone "123" = (rJohn, some .phoneInvalid) := by
  constructor
  · have h := (add_phone_spec rJohn "1234567890").1 (by rfl)
    rw [h]
    decide
  · exact (add_phone_spec rJohn "123").2 (by rfl)

/-- C6: when `add_phone` or `add_birthday` raises, the record is unchanged —
the `Phone(...)`/`Birthday(...)` construction runs (and raises) before any
field of the record is touched.  `edit_phone` contains no raise statement at
all, so the claim is vacuously true of it. -/
theorem no_partial_update (r : Record) (s : String) :
    ((r.add_phone s).2.isSome → (r.add_phone s).1 = r)
  ∧ ((r.add_birthday s).2.isSome → (r.add_birthday s).1 = r) := by
  constructor <;> intro h
  · unfold Record.add_phone at h ⊢
    cases hm : Phone.make s with
    | error e => rfl
    | ok p => rw [hm] at h; cases h
  · unfold Record.add_birthday at h ⊢
    cases hm : Birthday.make s with
    | error e => rfl
    | ok d => rw [hm] at h; cases h

/-- Witness for C6: a failing add_phone and a failing add_birthday each leave
the concrete record untouched. -/
theorem no_partial_update_witness :
    (rJohn.add_phone "abc").1 = rJohn ∧ (rJohn.add_birthday "nope").1 = rJohn :=
  ⟨(no_partial_update rJohn "abc").1 rfl,
   (no_partial_update rJohn "nope").2 rfl⟩

/-- C7: Birthday parsing: "15.11.1990" parses to 15 November 1990;
"31.02.1990" (not a valid calendar date) and "1990-11-15" (wrong separator)
both fail with the ValidationError of `validate_birthday`. -/
theorem birthday_parsing :
    Birthday.make "15.11.1990" = .ok ⟨1990, 11, 15⟩
  ∧ Birthday.make "31.02.1990" = .error .birthdayFormat
  ∧ Birthday.make "1990-11-15" = .error .birthdayFormat :=
  ⟨rfl, rfl, rfl⟩

/-- C10 (counterexample): "5.1.90" is rejected — CPython's `%Y` directive
matches exactly four digits, so a year with fewer than four digits never
parses. -/
theorem short_year_rejected :
    Birthday.make "5.1.90" = .error .birthdayFormat :=
  rfl

/-- C10 (amended): day and month fields need not be zero-padded — a
one-digit day and a one-digit month are accepted and the corresponding date
is stored — but the year must be exactly four digits: "5.1.90" and
"5.1.990" are rejected with ValidationError. -/
theorem unpadded_day_month :
    Birthday.make "5.1.1990" = .ok ⟨1990, 1, 5⟩
  ∧ Birthday.make "5.11.1990" = .ok ⟨1990, 11, 5⟩
  ∧ Birthday.make "15.1.1990" = .ok ⟨1990, 1, 15⟩
  ∧ Birthday.make "5.1.90" = .error .birthdayFormat
  ∧ Birthday.make "5.1.990" = .error .birthdayFormat :=
  ⟨rfl, rfl, rfl, rfl, rfl⟩

/-- A successful per-record loop body yields the record's name exactly when
the declarative inclusion predicate holds. -/
theorem recordUpcoming_ok (now : PyDateTime) (r : Record) (o : Option String)
    (h : recordUpcoming now r = .ok o) :
    o = if upcomingPred now r = true then some r.name.value else none := by
  obtain ⟨nm, phones, birthday⟩ := r
  cases birthday with
  | none =>
    simp only [recordUpcoming] at h
    cases h
    simp [upcomingPred]
  | some bd =>
    cases hrep : bd.replaceYear now.date.year with
    | error e =>
      simp only [recordUpcoming, hrep] at h
      cases h
    | ok d =>
      simp only [recordUpcoming, hrep] at h
      simp only [upcomingPred, hrep]
      cases hw : inWindow now d with
      | false =>
        rw [hw] at h
        simp only [Bool.false_eq_true, if_false] at h ⊢
        cases h
        rfl
      | true =>
        rw [hw] at h
        simp only [if_true] at h ⊢
        cases h
        rfl

/-- The declarative inclusion predicate, unfolded to the spec's wording. -/
theorem upcomingPred_iff (now : PyDateTime) (r : Record) :
    upcomingPred now r = true ↔
      ∃ bd d, r.birthday = some bd ∧ bd.replaceYear now.date.year = .ok d ∧
        inWindow now d = true := by
  unfold upcomingPred
  cases hb : r.birthday with
  | none => simp
  | some bd =>
    cases hrep : bd.replaceYear now.date.year with
    | error e => simp [hrep]
    | ok d => simp [hrep]

/-- A successful pass of the loop returns exactly the names of the records
satisfying the inclusion predicate, in list (= insertion) order. -/
theorem upcomingLoop_ok (now : PyDateTime) (l : List (String × Record))
    (res : List String) (h : upcomingLoop now l = .ok res) :
    res = (l.filter fun p => upcomingPred now p.2).map fun p => p.2.name.value := by
  induction l generalizing res with
  | nil =>
    cases h
    rfl
  | cons p t ih =>
    rw [upcomingLoop] at h
    cases hr : recordUpcoming now p.2 with
    | error e => rw [hr] at h; cases h
    | ok o =>
      rw [hr] at h
      have ho := recordUpcoming_ok now p.2 o hr
      cases o with
      | none =>
        have hp : upcomingPred now p.2 = false := by
          cases hpp : upcomingPred now p.2
          · rfl
          · rw [hpp] at ho; cases ho
        rw [ih res h, List.filter_cons, hp]
        simp
      | some n =>
        have hp : upcomingPred now p.2 = true := by
          cases hpp : upcomingPred now p.2
          · rw [hpp] at ho; cases ho
          · rfl
        have hn : n = p.2.name.value := by
          rw [hp] at ho
          cases ho
          rfl
        cases ht : upcomingLoop now t with
        | error e => rw [ht] at h; cases h
        | ok res' =>
          rw [ht] at h
          cases h
          rw [List.filter_cons, hp]
          simp [hn, ih res' ht]

/-- C3: a successful `get_upcoming_birthdays` returns, in insertion order of
the mapping, exactly the names of the records that have a birthday whose
date, with the year replaced by the current year, lies in the half-open
window `today ≤ D < today + 7 days`; a record with no birthday is never
included. -/
theorem get_upcoming_birthdays_spec (b : AddressBook) (now : PyDateTime)
    (res : List String) (h : b.get_upcoming_birthdays now = .ok res) :
    res = (b.data.filter fun p => upcomingPred now p.2).map (fun p => p.2.name.value)
  ∧ ∀ n, n ∈ res ↔ ∃ p ∈ b.data, ∃ bd d, p.2.birthday = some bd ∧
      bd.replaceYear now.date.year = .ok d ∧ inWindow now d = true ∧
      p.2.name.value = n := by
  have h1 := upcomingLoop_ok now b.data res h
  refine ⟨h1, fun n => ?_⟩
  rw [h1]
  simp only [List.mem_map, List.mem_filter]
  constructor
  · rintro ⟨p, ⟨hpmem, hpred⟩, hname⟩
    rcases (upcomingPred_iff now p.2).mp hpred with ⟨bd, d, hbd, hrep, hw⟩
    exact ⟨p, hpmem, bd, d, hbd, hrep, hw, hname⟩
  · rintro ⟨p, hpmem, bd, d, hbd, hrep, hw, hname⟩
    exact ⟨p, ⟨hpmem, (upcomingPred_iff now p.2).mpr ⟨bd, d, hbd, hrep, hw⟩⟩, hname⟩

/-- Witness for C3 at "today" = 2024-11-14 (midnight): John's 15.11.1990
lands in the window, Jane's 25.11.1990 and birthday-less Bob do not, and the
result keeps insertion order. -/
theorem get_upcoming_birthdays_spec_witness :
    ["John"] = (sampleBook.data.filter fun p =>
        upcomingPred ⟨⟨2024, 11, 14⟩, 0⟩ p.2).map (fun p => p.2.name.value) :=
  (get_upcoming_birthdays_spec sampleBook ⟨⟨2024, 11, 14⟩, 0⟩ ["John"] rfl).1

/-- C5 (counterexample): a birthday of 29.02.2020 is constructible (2020 is
a leap year), but `get_upcoming_birthdays` invoked in the non-leap year 2025
then fails with the date library's out-of-range error from
`replace(year=2025)` — a failure mode that is neither one of the core's
ValidationErrors nor a boolean/absent sentinel. -/
theorem feb29_nonvalidation_error :
    Birthday.make "29.02.2020" = .ok ⟨2020, 2, 29⟩
  ∧ febBook.get_upcoming_birthdays ⟨⟨2025, 1, 1⟩, 0⟩ = .error .dateOutOfRange
  ∧ PyErr.isValidation .dateOutOfRange = false :=
  ⟨rfl, rfl, rfl⟩

/-- Every error out of the birthday parser is the DD.MM.YYYY format error. -/
theorem strptimeDMY_error (s : String) (e : PyErr)
    (h : strptimeDMY s = .error e) : e = .birthdayFormat := by
  unfold strptimeDMY at h
  split at h
  · cases h
    rfl
  · split at h
    · split at h
      · cases h
      · cases h
        rfl
    · cases h
      rfl

/-- An error out of `replace(year=...)` is always the out-of-range error. -/
theorem replaceYear_error (bd : PyDate) (y : ℕ) (e : PyErr)
    (h : bd.replaceYear y = .error e) : e = .dateOutOfRange := by
  unfold PyDate.replaceYear at h
  split at h
  · cases h
  · cases h
    rfl

/-- An error out of the per-record loop body is the out-of-range error from
`replace`, and pinpoints a birthday that does not exist in the given year. -/
theorem recordUpcoming_error (now : PyDateTime) (r : Record) (e : PyErr)
    (h : recordUpcoming now r = .error e) :
    e = .dateOutOfRange ∧ ∃ bd, r.birthday = some bd ∧
      bd.replaceYear now.date.year = .error .dateOutOfRange := by
  obtain ⟨nm, phones, birthday⟩ := r
  cases birthday with
  | none =>
    simp only [recordUpcoming] at h
    cases h
  | some bd =>
    cases hrep : bd.replaceYear now.date.year with
    | error efound =>
      simp only [recordUpcoming, hrep] at h
      injection h with hinj
      subst hinj
      have he := replaceYear_error bd now.date.year _ hrep
      exact ⟨he, bd, rfl, he ▸ hrep⟩
    | ok d =>
      simp only [recordUpcoming, hrep] at h
      cases hw : inWindow now d <;> rw [hw] at h <;> simp at h

/-- An error out of the whole loop comes from some record of the list. -/
theorem upcomingLoop_error (now : PyDateTime) (l : List (String × Record))
    (e : PyErr) (h : upcomingLoop now l = .error e) :
    e = .dateOutOfRange ∧ ∃ p ∈ l, ∃ bd, p.2.birthday = some bd ∧
      bd.replaceYear now.date.year = .error .dateOutOfRange := by
  induction l with
  | nil => cases h
  | cons p t ih =>
    rw [upcomingLoop] at h
    cases hr : recordUpcoming now p.2 with
    | error efound =>
      rw [hr] at h
      injection h with hinj
      subst hinj
      rcases recordUpcoming_error now p.2 _ hr with ⟨he, bd, hbd, hrep⟩
      exact ⟨he, p, List.mem_cons_self _ _, bd, hbd, hrep⟩
    | ok o =>
      rw [hr] at h
      cases o with
      | none =>
        rcases ih h with ⟨he, q, hq, bd, hbd, hrep⟩
        exact ⟨he, q, List.mem_cons_of_mem _ hq, bd, hbd, hrep⟩
      | some n =>
        cases ht : upcomingLoop now t with
        | error efound =>
          rw [ht] at h
          simp only [Except.map] at h
          injection h with hinj
          subst hinj
          rcases ih ht with ⟨he, q, hq, bd, hbd, hrep⟩
          exact ⟨he, q, List.mem_cons_of_mem _ hq, bd, hbd, hrep⟩
        | ok res' =>
          rw [ht] at h
          simp only [Except.map] at h
          cases h

/-- The only error `add_phone` can raise is the phone ValidationError. -/
theorem add_phone_error (r : Record) (s : String) (e : PyErr)
    (h : (r.add_phone s).2 = some e) : e = .phoneInvalid := by
  unfold Record.add_phone Phone.make at h
  by_cases hp : pyPhoneOk s = true
  · rw [if_pos hp] at h
    simp at h
  · rw [if_neg hp] at h
    simp only [Option.some.injEq] at h
    subst h
    rfl

/-- The only error `add_birthday` can raise is the birthday ValidationError. -/
theorem add_birthday_error (r : Record) (s : String) (e : PyErr)
    (h : (r.add_birthday s).2 = some e) : e = .birthdayFormat := by
  unfold Record.add_birthday at h
  cases hm : Birthday.make s with
  | error efound =>
    rw [hm] at h
    simp only [Option.some.injEq] at h
    subst h
    exact strptimeDMY_error s _ hm
  | ok d =>
    rw [hm] at h
    simp at h

/-- C5 (amended): every error raised while constructing or mutating a Record
is one of the core's ValidationErrors, and missing entries are reported by
sentinels; `get_upcoming_birthdays` alone has one further failure mode: when
some record's birthday month/day does not exist in the current year (Feb 29
in a non-leap year), `replace(year=...)` raises the date library's
out-of-range error and the whole call fails with it. -/
theorem failure_modes (b : AddressBook) (now : PyDateTime) :
    (∀ s e, Record.make s = .error e → e.isValidation = true)
  ∧ (∀ r s e, (Record.add_phone r s).2 = some e → e.isValidation = true)
  ∧ (∀ r s e, (Record.add_birthday r s).2 = some e → e.isValidation = true)
  ∧ (∀ e, b.get_upcoming_birthdays now = .error e →
      e = .dateOutOfRange ∧ ∃ p ∈ b.data, ∃ bd, p.2.birthday = some bd ∧
        bd.replaceYear now.date.year = .error .dateOutOfRange) := by
  refine ⟨fun s e h => ?_, fun r s e h => ?_, fun r s e h => ?_, fun e h => ?_⟩
  · unfold Record.make Name.make at h
    split at h
    · cases h
      rfl
    · cases h
  · rw [add_phone_error r s e h]
    rfl
  · rw [add_birthday_error r s e h]
    rfl
  · exact upcomingLoop_error now b.data e h

/-- Witness for the amended C5 theorem: a validation error from an empty
name, and the concrete Feb-29 book failing in 2025 with the out-of-range
error traced to its record. -/
theorem failure_modes_witness :
    PyErr.isValidation .nameRequired = true
  ∧ (PyErr.dateOutOfRange = PyErr.dateOutOfRange
      ∧ ∃ p ∈ febBook.data, ∃ bd, p.2.birthday = some bd ∧
          bd.replaceYear (2025 : ℕ) = .error .dateOutOfRange) :=
  ⟨(failure_modes febBook ⟨⟨2025, 1, 1⟩, 0⟩).1 "" .nameRequired rfl,
   (failure_modes febBook ⟨⟨2025, 1, 1⟩, 0⟩).2.2.2 .dateOutOfRange rfl⟩

/-- Looking a key up right after inserting it finds the inserted entry. -/
theorem find_dictInsert_self (l : List (String × Record)) (k : String) (v : Record) :
    ((dictInsert l k v).find? fun p => p.1 == k) = some (k, v) := by
  induction l with
  | nil => simp [dictInsert]
  | cons q t ih =>
    by_cases hq : q.1 = k
    · simp [dictInsert, hq]
    · simp [dictInsert, hq, List.find?_cons, ih]

/-- C8: after `add_record(r)`, `find` with r's exact name text returns the
very record that was added, and `find(m)` for any text `m` that differs from
every stored key — in particular one differing only in letter case —
returns absent. -/
theorem add_record_find (b : AddressBook) (r : Record) :
    (b.add_record r).find r.name.value = some r
  ∧ ∀ m, (∀ p ∈ (b.add_record r).data, m ≠ p.1) → (b.add_record r).find m = none := by
  constructor
  · unfold AddressBook.find AddressBook.add_record
    rw [find_dictInsert_self b.data r.name.value r]
    rfl
  · intro m hm
    unfold AddressBook.find
    rw [List.find?_eq_none.mpr]
    · rfl
    · intro p hp
      simp only [beq_iff_eq]
      exact fun hc => hm p hp hc.symm

/-- Witness for C8: adding John to an empty book, an exact lookup succeeds
and a lookup differing only in case is absent. -/
theorem add_record_find_witness :
    (AddressBook.add_record ⟨[]⟩ rJohn).find "John" = some rJohn
  ∧ (AddressBook.add_record ⟨[]⟩ rJohn).find "john" = none :=
  ⟨(add_record_find ⟨[]⟩ rJohn).1,
   (add_record_find ⟨[]⟩ rJohn).2 "john" (by decide)⟩

/-- C9: a record whose birthday anniversary falls on the calendar date of
the call is excluded whenever the call happens strictly after midnight: the
captured `now` carries a time of day, and the comparison `today <=
birthday_this_year` pits it against midnight of that same date. -/
theorem same_day_excluded_after_midnight (r : Record) (bd : PyDate)
    (now : PyDateTime) (h1 : r.birthday = some bd)
    (h2 : bd.replaceYear now.date.year = .ok now.date) (h3 : 0 < now.tod) :
    recordUpcoming now r = .ok none
  ∧ AddressBook.get_upcoming_birthdays ⟨[(r.name.value, r)]⟩ now = .ok [] := by
  have hw : inWindow now now.date = false := by
    unfold inWindow keyLe PyDateTime.key
    have hlt : ¬ now.date.ordinal < now.date.ordinal := Nat.lt_irrefl _
    have htod : ¬ now.tod ≤ 0 := by omega
    simp [hlt, htod]
  have hrec : recordUpcoming now r = .ok none := by
    simp [recordUpcoming, h1, h2, hw]
  refine ⟨hrec, ?_⟩
  unfold AddressBook.get_upcoming_birthdays upcomingLoop
  rw [hrec]
  rfl

/-- Witness for C9: birthday 14.11.1990, called at 2024-11-14 one instant
after midnight — the record is excluded and the result is empty. -/
theorem same_day_excluded_after_midnight_witness :
    recordUpcoming ⟨⟨2024, 11, 14⟩, 1⟩ ⟨⟨"J"⟩, [], some ⟨1990, 11, 14⟩⟩ = .ok none
  ∧ AddressBook.get_upcoming_birthdays
      ⟨[("J", ⟨⟨"J"⟩, [], some ⟨1990, 11, 14⟩⟩)]⟩ ⟨⟨2024, 11, 14⟩, 1⟩ = .ok [] :=
  same_day_excluded_after_midnight ⟨⟨"J"⟩, [], some ⟨1990, 11, 14⟩⟩
    ⟨1990, 11, 14⟩ ⟨⟨2024, 11, 14⟩, 1⟩ rfl rfl (by decide)

end ContactBook
